import Mathlib

/-!
Verification of the progress-tracking module of the MonoSid therapy-companion
application (`src/utils/progressTracking.ts`, class `ProgressTracker`).

The TypeScript module is shallowly embedded: JavaScript strings become
`List Char` (with `String` used for stored record fields), JS numbers arising
from `parseInt` of digit runs become `Nat` or `Int` with explicit clamping,
fallible async operations become `Except`-valued functions, and the model /
localStorage side effects of the session pipeline are made explicit as an
`Effect` trace plus an explicit store value of type `List ProgressData`.
Each generative-model call site is parameterised by the response text the
model would return (`Option String`, `none` standing for a rejected call),
which is the only way the conversation messages influence the parsed results.
-/

namespace ProgressTracker

/-! ## Basic string utilities (JS string primitives used by the parsers) -/

/-- JS whitespace as used by `String.prototype.trim` (ASCII subset; the
source strings never contain the exotic Unicode space characters). -/
def isJsSpace (c : Char) : Bool :=
  c = ' ' || c = '\t' || c = '\n' || c = '\r' || c = '\x0b' || c = '\x0c'

/-- `s.trim()` on a character list. -/
def trimChars (s : List Char) : List Char :=
  ((s.dropWhile isJsSpace).reverse.dropWhile isJsSpace).reverse

/-- `s.trim()` on a `String`. -/
def trimStr (s : String) : String :=
  (trimChars s.toList).asString

/-- `s.split(sep)` for a single-character separator, keeping empty pieces,
as JS `String.prototype.split` does. -/
def splitOnChar (sep : Char) : List Char → List (List Char)
  | [] => [[]]
  | c :: rest =>
    if c = sep then [] :: splitOnChar sep rest
    else
      match splitOnChar sep rest with
      | [] => [[c]]
      | p :: ps => (c :: p) :: ps

/-- Worker for `splitOnSeq`.  The fuel argument is always instantiated with
the length of the scanned list; every step consumes at least one character
(the separator patterns used by the source are nonempty), so the fuel never
runs out and the `0` fallback case is unreachable. -/
def splitSeqFuel (pat : List Char) : Nat → List Char → List (List Char)
  | _, [] => [[]]
  | 0, s => [s]
  | fuel + 1, c :: rest =>
    if pat.isPrefixOf (c :: rest) then
      [] :: splitSeqFuel pat fuel ((c :: rest).drop pat.length)
    else
      match splitSeqFuel pat fuel rest with
      | [] => [[c]]
      | p :: ps => (c :: p) :: ps

/-- `s.split(pat)` for a multi-character separator string: non-overlapping,
left-to-right, keeping empty pieces, as JS `String.prototype.split`. -/
def splitOnSeq (pat : List Char) (s : List Char) : List (List Char) :=
  splitSeqFuel pat s.length s

/-- `s.includes(pat)` (JS substring containment). -/
def containsSeq (pat : List Char) : List Char → Bool
  | [] => pat.isEmpty
  | c :: rest => pat.isPrefixOf (c :: rest) || containsSeq pat rest

/-- `s.replace(c, '')` for a single-character pattern: removes the first
occurrence only, as JS `String.prototype.replace` with a string pattern. -/
def removeFirstChar (c : Char) : List Char → List Char
  | [] => []
  | x :: xs => if x = c then xs else x :: removeFirstChar c xs

/-- `s.replace(pat, '')` for a multi-character pattern (first occurrence
only; the patterns used by the source are nonempty). -/
def removeFirstSeq (pat : List Char) : List Char → List Char
  | [] => []
  | c :: rest =>
    if pat.isPrefixOf (c :: rest) then (c :: rest).drop pat.length
    else c :: removeFirstSeq pat rest

/-- Numeric value of a digit run, as `parseInt(run, 10)` computes it.
`parseInt` returns an IEEE double, but every consumer in the source clamps
the value to at most 100 immediately, and on that range the double is
exact, so `Nat` is a faithful carrier. -/
def digitsToNat (ds : List Char) : Nat :=
  ds.foldl (fun acc c => acc * 10 + (c.toNat - '0'.toNat)) 0

/-- `parseInt(s, 10) || 0` on an already-trimmed string: an optional sign
followed by leading digits; anything unparseable (`NaN`) falls back to 0,
and so do `0`/`-0` themselves via JS falsiness — the numeric result is the
same. -/
def jsParseIntOr0 (s : List Char) : Int :=
  match s with
  | '-' :: rest =>
    let ds := rest.takeWhile Char.isDigit
    if ds.isEmpty then 0 else -(digitsToNat ds : Int)
  | '+' :: rest =>
    let ds := rest.takeWhile Char.isDigit
    if ds.isEmpty then 0 else (digitsToNat ds : Int)
  | _ =>
    let ds := s.takeWhile Char.isDigit
    if ds.isEmpty then 0 else (digitsToNat ds : Int)

/-- Worker for `digitRuns`; fuel is instantiated with the list length and
every step consumes at least one character, so it never runs out. -/
def digitRunsFuel : Nat → List Char → List (List Char)
  | _, [] => []
  | 0, _ => []
  | fuel + 1, c :: rest =>
    if c.isDigit then
      (c :: rest).takeWhile Char.isDigit ::
        digitRunsFuel fuel ((c :: rest).dropWhile Char.isDigit)
    else digitRunsFuel fuel rest

/-- `s.match(/\d+/g)`: the maximal digit runs of the text, left to right. -/
def digitRuns (s : List Char) : List (List Char) :=
  digitRunsFuel s.length s

/-! ## Data model (the TypeScript interfaces) -/

/-- The status enum of a goal. -/
inductive GoalStatus where
  | notStarted
  | inProgress
  | achieved
deriving DecidableEq, Repr

/-- One element of `ProgressData.goals`. -/
structure Goal where
  goal : String
  progress : Int
  status : GoalStatus
deriving DecidableEq, Repr

/-- `interface EmotionData`. -/
structure EmotionData where
  timestamp : String
  value : Int
  emotion : String
deriving DecidableEq, Repr

/-- One element of `emotionalJourney.dominantEmotions`. -/
structure DominantEmotion where
  emotion : String
  percentage : Int
deriving DecidableEq, Repr

/-- The `emotionalJourney` component of `ProgressData`. -/
structure EmotionalJourney where
  emotions : List EmotionData
  dominantEmotions : List DominantEmotion
  engagementLevel : List Nat
deriving DecidableEq, Repr

/-- The `improvements` component of `ProgressData`. -/
structure Improvements where
  strengths : List String
  challenges : List String
  recommendations : List String
deriving DecidableEq, Repr

/-- `interface ProgressData`. -/
structure ProgressData where
  sessionSummary : String
  goals : List Goal
  improvements : Improvements
  timestamp : String
  emotionalJourney : EmotionalJourney
deriving DecidableEq, Repr

/-- `interface SessionAnalysis`.  `keyTopics` and `insights` are `Option`s
because `parseAnalysisResponse` assigns
`section.split(':')[1]?.trim().split('-')...` to them: when the section has
no colon the optional chain short-circuits and the field becomes
`undefined`, which `generateComprehensiveSummary` later crashes on. -/
structure SessionAnalysis where
  emotionalState : String
  keyTopics : Option (List String)
  insights : Option (List String)
deriving DecidableEq, Repr

/-- `interface Message` (chat UI input). -/
structure Message where
  text : String
  timestamp : String
  isUser : Bool
deriving DecidableEq, Repr

/-! ## `determineGoalStatus` (source lines 700-704) -/

/-- `determineGoalStatus(progress)`: `progress >= 100` is achieved,
`progress > 0` is in-progress, anything else is not-started. -/
def determineGoalStatus (progress : Int) : GoalStatus :=
  if progress ≥ 100 then GoalStatus.achieved
  else if progress > 0 then GoalStatus.inProgress
  else GoalStatus.notStarted

/-! ## Regex helpers used by `analyzeGoals` (source lines 540-592)

`section.match(/Title: (.+)/)` tries each start position left to right; at a
given position the literal pattern must match and the greedy `(.+)` capture
takes the rest of the line, requiring at least one non-newline character. -/

/-- First capture of `/<pat>(.+)/` anywhere in the text: at the first
position where `pat` occurs followed by at least one non-newline character,
the capture is the remainder of that line. -/
def findLineCapture (pat : List Char) : List Char → Option (List Char)
  | [] => none
  | c :: rest =>
    if pat.isPrefixOf (c :: rest) then
      let cap := ((c :: rest).drop pat.length).takeWhile (fun ch => ¬ ch = '\n')
      if cap.isEmpty then findLineCapture pat rest else some cap
    else findLineCapture pat rest

/-- First capture of `/Progress: (\d+)%/`: the literal prefix, then a
nonempty maximal digit run, then a percent sign.  (Backtracking inside
`\d+` cannot produce a match the maximal run misses, because any shorter
run is followed by a digit, not `%`.) -/
def findProgressCapture : List Char → Option Nat
  | [] => none
  | c :: rest =>
    if "Progress: ".toList.isPrefixOf (c :: rest) then
      let after := (c :: rest).drop "Progress: ".toList.length
      let ds := after.takeWhile Char.isDigit
      if ds.isEmpty then findProgressCapture rest
      else
        match after.drop ds.length with
        | '%' :: _ => some (digitsToNat ds)
        | _ => findProgressCapture rest
    else findProgressCapture rest

/-- First capture of `/Status: (not-started|in-progress|achieved)/`. -/
def findStatusCapture : List Char → Option GoalStatus
  | [] => none
  | c :: rest =>
    if "Status: ".toList.isPrefixOf (c :: rest) then
      let after := (c :: rest).drop "Status: ".toList.length
      if "not-started".toList.isPrefixOf after then some GoalStatus.notStarted
      else if "in-progress".toList.isPrefixOf after then some GoalStatus.inProgress
      else if "achieved".toList.isPrefixOf after then some GoalStatus.achieved
      else findStatusCapture rest
    else findStatusCapture rest

/-! ## Goal-list parser (`analyzeGoals`, source lines 540-592) -/

/-- The intermediate goal record built by `analyzeGoals` before the
aggregator converts it to a `Goal`. -/
structure GoalRec where
  title : String
  description : String
  progress : Nat
  status : GoalStatus
deriving DecidableEq, Repr

/-- One iteration of the `for (const section of goalSections)` loop: a block
contributes a goal only when both the title and the description pattern
match; progress is `Math.min(100, Math.max(0, parseInt(...)))` (the digit
run is nonnegative, so only the upper clamp can act) defaulting to 0, and
status defaults to not-started when the status pattern is absent. -/
def parseGoalBlock (s : List Char) : Option GoalRec :=
  match findLineCapture "Title: ".toList s, findLineCapture "Description: ".toList s with
  | some tcap, some dcap =>
    some
      { title := (trimChars tcap).asString
        description := (trimChars dcap).asString
        progress :=
          (match findProgressCapture s with
           | some p => min 100 p
           | none => 0)
        status := (findStatusCapture s).getD GoalStatus.notStarted }
  | _, _ => none

/-- The parsing part of `analyzeGoals`: split the response on blank lines
and scan each block. -/
def parseGoalsResponse (t : String) : List GoalRec :=
  (splitOnSeq "\n\n".toList t.toList).filterMap parseGoalBlock

/-- `analyzeGoals(messages)`: the response text of the single model call is
supplied as `some text`; `none` is the rejected call, caught and replaced
by the empty list (source lines 588-591). -/
def analyzeGoals (resp : Option String) : List GoalRec :=
  match resp with
  | some t => parseGoalsResponse t
  | none => []

/-! ## Engagement parser (`analyzeEngagement`, source lines 260-297) -/

/-- The `while (normalizedRatings.length < 5) push(0)` padding loop. -/
def padToFive (l : List Nat) : List Nat :=
  l ++ List.replicate (5 - l.length) 0

/-- The parsing part of `analyzeEngagement`: first five digit runs of the
response, each clamped via `Math.min(100, Math.max(0, parseInt(n, 10) || 0))`
(digit runs are nonnegative, so only the upper clamp can act), padded with
zeros to length five. -/
def parseEngagementResponse (t : String) : List Nat :=
  padToFive (((digitRuns t.toList).take 5).map (fun ds => min 100 (digitsToNat ds)))

/-- `analyzeEngagement(messages)`: `none` is the rejected model call, caught
and replaced by `[0, 0, 0, 0, 0]` (source lines 293-296). -/
def analyzeEngagement (resp : Option String) : List Nat :=
  match resp with
  | some t => parseEngagementResponse t
  | none => [0, 0, 0, 0, 0]

/-! ## Session-summary operation (`analyzeSessionSummary`, lines 520-538) -/

/-- `analyzeSessionSummary(messages)`: the trimmed response, or the empty
string when the model call rejects (source lines 534-537). -/
def analyzeSessionSummary (resp : Option String) : String :=
  match resp with
  | some t => trimStr t
  | none => ""

/-! ## Improvement-list parser (`analyzeImprovements`, lines 594-664) -/

/-- Bullet extraction shared by the three improvement categories: split the
label-stripped block into lines, keep those whose trimmed form starts with
a dash, remove the first dash of each (JS `replace('-', '')`) and trim. -/
def parseBulletLines (s : List Char) : List String :=
  ((splitOnChar '\n' s).filter (fun line => "-".toList.isPrefixOf (trimChars line))).map
    (fun line => (trimChars (removeFirstChar '-' line)).asString)

/-- One iteration of the `sections.forEach` loop: a block is assigned to a
category by its literal leading label (`section.startsWith(...)`); the
label is removed by `replace(label, '')`, which strips the leading
occurrence.  A later block with the same label overwrites the earlier one,
as the JS assignment does. -/
def parseImprovementsSection (imp : Improvements) (s : List Char) : Improvements :=
  if "Strengths:".toList.isPrefixOf s then
    { imp with strengths := parseBulletLines (removeFirstSeq "Strengths:".toList s) }
  else if "Challenges:".toList.isPrefixOf s then
    { imp with challenges := parseBulletLines (removeFirstSeq "Challenges:".toList s) }
  else if "Recommendations:".toList.isPrefixOf s then
    { imp with recommendations := parseBulletLines (removeFirstSeq "Recommendations:".toList s) }
  else imp

/-- The parsing part of `analyzeImprovements`. -/
def parseImprovementsResponse (t : String) : Improvements :=
  (splitOnSeq "\n\n".toList t.toList).foldl parseImprovementsSection
    { strengths := [], challenges := [], recommendations := [] }

/-- `analyzeImprovements(messages)`: `none` is the rejected model call,
caught and replaced by the empty record (source lines 656-663). -/
def analyzeImprovements (resp : Option String) : Improvements :=
  match resp with
  | some t => parseImprovementsResponse t
  | none => { strengths := [], challenges := [], recommendations := [] }

/-! ## Emotion parser (`analyzeEmotions`, source lines 206-258) -/

/-- JS `\w`: ASCII letters, digits and underscore. -/
def isWordChar (c : Char) : Bool :=
  c.isAlphanum || c = '_'

/-- Attempt of `/(\w+):\s*(\d+)%/` anchored at the head of `s`: a nonempty
maximal word run, a colon, optional whitespace, a nonempty maximal digit
run, and a percent sign; returns the captures and the rest of the text.
(As with `findProgressCapture`, greedy maximal runs lose no matches.) -/
def matchDominantAt (s : List Char) : Option ((String × Int) × List Char) :=
  let w := s.takeWhile isWordChar
  if w.isEmpty then none
  else
    match s.drop w.length with
    | ':' :: after2 =>
      let after3 := after2.dropWhile isJsSpace
      let ds := after3.takeWhile Char.isDigit
      if ds.isEmpty then none
      else
        match after3.drop ds.length with
        | '%' :: tail => some ((w.asString, (digitsToNat ds : Int)), tail)
        | _ => none
    | _ => none

/-- Worker for `scanDominant`; fuel is instantiated with the list length.
A successful match consumes at least four characters and a failure advances
one position, so the fuel never runs out. -/
def scanDominantFuel : Nat → List Char → List (String × Int)
  | _, [] => []
  | 0, _ => []
  | fuel + 1, c :: rest =>
    match matchDominantAt (c :: rest) with
    | some (p, tail) => p :: scanDominantFuel fuel tail
    | none => scanDominantFuel fuel rest

/-- `matchAll(/(\w+):\s*(\d+)%/g)`: all matches, left to right,
non-overlapping. -/
def scanDominant (s : List Char) : List (String × Int) :=
  scanDominantFuel s.length s

/-- Result record of `analyzeEmotions`. -/
structure EmotionAnalysis where
  emotions : List EmotionData
  dominantEmotions : List DominantEmotion
deriving DecidableEq, Repr

/-- One pipe-bearing line of the response: the first three pipe-delimited
trimmed fields are timestamp, emotion and intensity; the line is kept only
when all three are truthy, i.e. nonempty strings. -/
def parseEmotionLine (line : List Char) : Option EmotionData :=
  match (splitOnChar '|' line).map trimChars with
  | t :: e :: v :: _ =>
    if t ≠ [] ∧ e ≠ [] ∧ v ≠ [] then
      some { timestamp := t.asString, value := jsParseIntOr0 v, emotion := e.asString }
    else none
  | _ => none

/-- The parsing part of `analyzeEmotions`: pipe-bearing lines become
emotion entries, and the text after the first `Distribution:` marker (up to
the next marker, as `split('Distribution:')[1]` delimits it) is scanned for
`word: NN%` pairs. -/
def parseEmotionResponse (t : String) : EmotionAnalysis :=
  { emotions :=
      ((splitOnChar '\n' t.toList).filter (fun l => l.contains '|')).filterMap parseEmotionLine
    dominantEmotions :=
      match (splitOnSeq "Distribution:".toList t.toList).get? 1 with
      | some sec => (scanDominant sec).map (fun p => { emotion := p.1, percentage := p.2 })
      | none => [] }

/-- `analyzeEmotions(messages)`: `none` is the rejected model call, caught
and replaced by the empty record (source lines 254-257). -/
def analyzeEmotions (resp : Option String) : EmotionAnalysis :=
  match resp with
  | some t => parseEmotionResponse t
  | none => { emotions := [], dominantEmotions := [] }

/-! ## Analysis parser (`parseAnalysisResponse`, source lines 129-152) -/

/-- One iteration of the `sections.forEach` loop.  A section is attributed
by case-insensitive keyword containment; the value is the text between the
first and second colon (`split(':')[1]`).  For the emotional state a
missing colon degrades to the empty string (`?.trim() || ''`); for the two
list fields the optional chain makes the whole right-hand side `undefined`,
modelled as `none`. -/
def parseAnalysisSection (analysis : SessionAnalysis) (s : List Char) : SessionAnalysis :=
  let lowered := s.map Char.toLower
  if containsSeq "emotional state".toList lowered then
    { analysis with
        emotionalState := (((splitOnChar ':' s).get? 1).map (fun v => (trimChars v).asString)).getD "" }
  else if containsSeq "key topics".toList lowered then
    { analysis with
        keyTopics :=
          ((splitOnChar ':' s).get? 1).map (fun v =>
            ((splitOnChar '-' (trimChars v)).map (fun p => (trimChars p).asString)).filter
              (fun p => p ≠ "")) }
  else if containsSeq "insights".toList lowered then
    { analysis with
        insights :=
          ((splitOnChar ':' s).get? 1).map (fun v =>
            ((splitOnChar '-' (trimChars v)).map (fun p => (trimChars p).asString)).filter
              (fun p => p ≠ "")) }
  else analysis

/-- `parseAnalysisResponse(text)`. -/
def parseAnalysisResponse (t : String) : SessionAnalysis :=
  (splitOnSeq "\n\n".toList t.toList).foldl parseAnalysisSection
    { emotionalState := "", keyTopics := some [], insights := some [] }

/-- `analyzeSession(conversation)`: parse the response, or the fixed
fallback record when the model call rejects (source lines 322-329). -/
def analyzeSession (resp : Option String) : SessionAnalysis :=
  match resp with
  | some t => parseAnalysisResponse t
  | none => { emotionalState := "Unable to analyze", keyTopics := some [], insights := some [] }

/-! ## Retry wrapper (`retryOperation`, source lines 60-70) -/

/-- `private static readonly MAX_RETRIES = 3`. -/
def MAX_RETRIES : Nat := 3

/-- `private static readonly RETRY_DELAY = 1000`. -/
def RETRY_DELAY : Nat := 1000

/-- Outcome of a `retryOperation` run: the propagated result, the number of
invocations of the wrapped operation, and the sequence of delays (in ms)
waited between attempts. -/
structure RetryResult (α : Type) where
  result : Except String α
  calls : Nat
  delays : List Nat
deriving Repr

/-- `retryOperation(operation, retries)`, with the fallible async operation
modelled as the outcome of its k-th invocation.  A success returns
immediately; a failure with budget left waits `RETRY_DELAY` and recurses
with the budget decremented; with no budget left the caught error is
rethrown unchanged. -/
def retryGo (op : Nat → Except String α) (k : Nat) : Nat → RetryResult α
  | 0 =>
    match op k with
    | Except.ok a => ⟨Except.ok a, 1, []⟩
    | Except.error e => ⟨Except.error e, 1, []⟩
  | retries + 1 =>
    match op k with
    | Except.ok a => ⟨Except.ok a, 1, []⟩
    | Except.error _ =>
      let r := retryGo op (k + 1) retries
      ⟨r.result, r.calls + 1, RETRY_DELAY :: r.delays⟩

/-- `retryOperation` starting from the first invocation. -/
def retryOperation (op : Nat → Except String α) (retries : Nat) : RetryResult α :=
  retryGo op 0 retries

/-! ## Local store (`saveProgress` and friends, source lines 72-127)

The persisted history (the JSON array under the single storage key) is
modelled directly as a `List ProgressData`; serialization is the identity
of this model. -/

/-- `validateProgressData(data)`: the JS function checks that every field
has its declared container type.  In the typed embedding each check holds
by construction, so the predicate is identically true. -/
def validateProgressData (_ : ProgressData) : Bool :=
  true

/-- `getProgressHistory()`: read the stored array and independently drop
every non-conforming element (missing key and parse failure degrade to the
empty history, which the list model absorbs). -/
def getProgressHistory (store : List ProgressData) : List ProgressData :=
  store.filter (fun item => validateProgressData item)

/-- `getLatestProgress()`: last element of the history, if any. -/
def getLatestProgress (store : List ProgressData) : Option ProgressData :=
  (getProgressHistory store).getLast?

/-- `list.slice(-n)`: the last `n` elements (all of them when fewer). -/
def takeLast (n : Nat) (l : List α) : List α :=
  l.drop (l.length - n)

/-- `saveProgress(progressData)`: validate, append to the existing history,
truncate to the last 50 entries, write.  An invalid record raises
`'Failed to save progress data'` instead of writing. -/
def saveProgress (store : List ProgressData) (progressData : ProgressData) :
    Except String (List ProgressData) :=
  if validateProgressData progressData then
    Except.ok (takeLast 50 (getProgressHistory store ++ [progressData]))
  else Except.error "Failed to save progress data"

/-! ## Goal merge (`mergeGoals`, source lines 752-773) -/

/-- The mutation applied to a matched goal: progress becomes the max of the
stored and incoming progress, and status is recomputed from that value. -/
def updateGoalProgress (g : Goal) (newProgress : Int) : Goal :=
  { g with
      progress := max g.progress newProgress
      status := determineGoalStatus (max g.progress newProgress) }

/-- `findIndex(g => g.goal === newGoal.goal)` followed by the in-place
update: rebuilds the list with the first goal of matching text updated,
or reports `none` when no goal matches. -/
def updateFirstMatch (t : String) (p : Int) : List Goal → Option (List Goal)
  | [] => none
  | g :: gs =>
    if g.goal = t then some (updateGoalProgress g p :: gs)
    else (updateFirstMatch t p gs).map (fun gs2 => g :: gs2)

/-- One iteration of the `newGoals.forEach` loop over the accumulating
merged list. -/
def mergeStep (merged : List Goal) (newGoal : Goal) : List Goal :=
  match updateFirstMatch newGoal.goal newGoal.progress merged with
  | some merged2 => merged2
  | none => merged ++ [newGoal]

/-- `mergeGoals(previousGoals, newGoals)`. -/
def mergeGoals (previousGoals newGoals : List Goal) : List Goal :=
  newGoals.foldl mergeStep previousGoals

/-- Modelled from the spec (section 4.5 (c)): the per-goal description of
the merge, for comparison with `mergeGoals`.  Every prior goal keeps the
larger of its progress and that of the first new goal of identical text
(with status recomputed), and every new goal whose text does not occur in
the prior list is appended after the prior goals. -/
def mergeOne (new : List Goal) (g : Goal) : Goal :=
  match new.find? (fun n => n.goal == g.goal) with
  | some n => updateGoalProgress g n.progress
  | none => g

/-- Modelled from the spec: a new goal is fresh when no prior goal has its
exact text. -/
def freshGoal (prev : List Goal) (n : Goal) : Bool :=
  ! prev.any (fun g => g.goal == n.goal)

/-- Modelled from the spec: merged prior goals followed by the fresh new
goals, in order. -/
def mergeGoalsSpec (prev new : List Goal) : List Goal :=
  prev.map (mergeOne new) ++ new.filter (freshGoal prev)

/-! ## Engagement trend (source lines 775-806) -/

/-- Worker for `splitMessagesIntoSegments`; fuel is instantiated with the
list length, and the segment size is at least one whenever the list is
nonempty, so the fuel never runs out. -/
def chunksOfFuel (s : Nat) : Nat → List α → List (List α)
  | _, [] => []
  | 0, _ => []
  | fuel + 1, l => l.take s :: chunksOfFuel s fuel (l.drop s)

/-- `splitMessagesIntoSegments(messages)`: contiguous chunks of size
`Math.ceil(messages.length / 3)` (for naturals, `(n + 2) / 3`), the last
chunk possibly shorter; the empty list yields no chunks. -/
def splitMessagesIntoSegments (messages : List Message) : List (List Message) :=
  chunksOfFuel ((messages.length + 2) / 3) messages.length messages

/-- One step of the `reduce` in `averageEngagementLevels`:
`acc.map((val, idx) => val + (curr[idx] || 0))`, written by structural
recursion on the accumulator with the current list shifted in step. -/
def addLevels : List Nat → List Nat → List Nat
  | [], _ => []
  | a :: as, curr => (a + curr.headD 0) :: addLevels as curr.tail

/-- `averageEngagementLevels(engagementResults)`: dimension-wise sums from
the zero accumulator, then `Math.round(sum / count)`; on naturals
`Math.round(sum / count) = (2 * sum + count) / (2 * count)` (half rounds
up).  An empty result list would divide by zero (`NaN` in JS); no caller
passes one. -/
def averageEngagementLevels (engagementResults : List (List Nat)) : List Nat :=
  (engagementResults.foldl addLevels [0, 0, 0, 0, 0]).map
    (fun sum => (2 * sum + engagementResults.length) / (2 * engagementResults.length))

/-- `calculateEngagementTrend(messages)`, parameterised by the per-segment
engagement operation it invokes (`this.analyzeEngagement` in the source):
one invocation per segment, then the dimension-wise rounded average.  (The
`catch` branch of the source is dead: the per-segment operation never
rejects.) -/
def calculateEngagementTrend (analyze : List Message → List Nat)
    (messages : List Message) : List Nat :=
  averageEngagementLevels ((splitMessagesIntoSegments messages).map analyze)

/-! ## Session pipeline with explicit effects

`trackProgressWithEmotions` and `endSession` interleave model calls and
storage accesses; the trace of those effects, in program order, is returned
alongside the result so that claims about which effects occur are
statable. -/

/-- One observable side effect of the pipeline. -/
inductive Effect where
  | modelCall
  | storeRead
  | storeWrite
deriving DecidableEq, Repr

/-- The responses the generative model would give to each call site of one
session run (`none` = that call rejects), plus the wall-clock timestamp.
The conversation messages influence results only through these responses. -/
structure TrackEnv where
  emotionsResp : Option String
  engagementResp : Option String
  summaryResp : Option String
  goalsResp : Option String
  improvementsResp : Option String
  trendResps : List (Option String)
  sessionResp : Option String
  timestamp : String

/-- The record assembled by `trackProgressWithEmotions` from the five
analyses (source lines 489-506).  `goal.title || ''` is the identity on
strings, and the goal status is recomputed from the parsed progress by
`determineGoalStatus`, overriding the parsed status. -/
def aggregateRecord (env : TrackEnv) : ProgressData :=
  let emotionalAnalysis := analyzeEmotions env.emotionsResp
  let engagementLevels := analyzeEngagement env.engagementResp
  let sessionSummary := analyzeSessionSummary env.summaryResp
  let goals := analyzeGoals env.goalsResp
  let improvements := analyzeImprovements env.improvementsResp
  { sessionSummary := sessionSummary
    goals :=
      goals.map (fun g =>
        { goal := g.title
          progress := (g.progress : Int)
          status := determineGoalStatus (g.progress : Int) })
    improvements := improvements
    timestamp := env.timestamp
    emotionalJourney :=
      { emotions := emotionalAnalysis.emotions
        dominantEmotions := emotionalAnalysis.dominantEmotions
        engagementLevel := engagementLevels } }

/-- The five concurrent model calls of the aggregator, as they appear in
the effect trace. -/
def fiveCalls : List Effect :=
  List.replicate 5 Effect.modelCall

/-- `trackProgressWithEmotions(messages)` (source lines 468-518): the empty
(or non-list, not representable here) message list raises before any model
or storage access; otherwise the five analyses run, the record is
assembled, validated, and saved.  Returns the result, the store after the
run, and the effect trace. -/
def trackProgressWithEmotions (env : TrackEnv) (store : List ProgressData)
    (messages : List Message) :
    Except String ProgressData × List ProgressData × List Effect :=
  if messages.isEmpty then
    (Except.error "No messages provided for progress tracking", store, [])
  else
    let progressData := aggregateRecord env
    if validateProgressData progressData then
      match saveProgress store progressData with
      | Except.ok store1 =>
        (Except.ok progressData, store1, fiveCalls ++ [Effect.storeRead, Effect.storeWrite])
      | Except.error e =>
        (Except.error e, store, fiveCalls ++ [Effect.storeRead])
    else
      (Except.ok progressData, store, fiveCalls)

/-- `generateComprehensiveSummary(currentSummary, analysis)` (source lines
808-819): the summary parts joined by newlines and trimmed.  When
`parseAnalysisResponse` left `keyTopics` or `insights` undefined, the
spread of `analysis.keyTopics.map(...)` throws a `TypeError`, modelled as
`none`. -/
def generateComprehensiveSummary (currentSummary : String) (analysis : SessionAnalysis) :
    Option String :=
  match analysis.keyTopics, analysis.insights with
  | some topics, some insights =>
    some (trimStr (String.intercalate "\n"
      ([currentSummary,
        "\n\nEmotional State: " ++ analysis.emotionalState,
        "\nKey Topics:"] ++
       topics.map (fun topic => "- " ++ topic) ++
       ["\nKey Insights:"] ++
       insights.map (fun insight => "- " ++ insight))))
  | _, _ => none

/-- The engagement-trend computation as `endSession` performs it, with the
response to the call for segment `i` drawn from `env.trendResps`. -/
def calculateEngagementTrendEnv (env : TrackEnv) (messages : List Message) : List Nat :=
  averageEngagementLevels
    (((splitMessagesIntoSegments messages).enum).map
      (fun p => analyzeEngagement (env.trendResps.getD p.1 none)))

/-- `endSession(messages)` (source lines 706-750): guard against an empty
message list, read the latest record, run the aggregator, merge goals and
emotion history with the prior record when one exists (a JS array is
truthy even when empty, so the merges run whenever a prior record exists),
recompute engagement as the segment trend, append the holistic analysis to
the summary, and save the final record. -/
def endSession (env : TrackEnv) (store : List ProgressData) (messages : List Message) :
    Except String ProgressData × List ProgressData × List Effect :=
  if messages.isEmpty then
    (Except.error "No messages provided for session analysis", store, [])
  else
    let latestProgress := getLatestProgress store
    match trackProgressWithEmotions env store messages with
    | (Except.error e, store1, eff1) => (Except.error e, store1, Effect.storeRead :: eff1)
    | (Except.ok finalProgress0, store1, eff1) =>
      let goals1 :=
        match latestProgress with
        | some lp => mergeGoals lp.goals finalProgress0.goals
        | none => finalProgress0.goals
      let emotions1 :=
        match latestProgress with
        | some lp => lp.emotionalJourney.emotions ++ finalProgress0.emotionalJourney.emotions
        | none => finalProgress0.emotionalJourney.emotions
      let segs := splitMessagesIntoSegments messages
      let engagementTrend := calculateEngagementTrendEnv env messages
      let sessionAnalysis := analyzeSession env.sessionResp
      let trendCalls := List.replicate segs.length Effect.modelCall
      match generateComprehensiveSummary finalProgress0.sessionSummary sessionAnalysis with
      | none =>
        (Except.error "TypeError: Cannot read properties of undefined",
         store1,
         Effect.storeRead :: eff1 ++ trendCalls ++ [Effect.modelCall])
      | some summary =>
        let finalProgress :=
          { finalProgress0 with
              sessionSummary := summary
              goals := goals1
              emotionalJourney :=
                { finalProgress0.emotionalJourney with
                    emotions := emotions1
                    engagementLevel := engagementTrend } }
        match saveProgress store1 finalProgress with
        | Except.ok store2 =>
          (Except.ok finalProgress, store2,
           Effect.storeRead :: eff1 ++ trendCalls ++
             [Effect.modelCall, Effect.storeRead, Effect.storeWrite])
        | Except.error e =>
          (Except.error e, store1,
           Effect.storeRead :: eff1 ++ trendCalls ++ [Effect.modelCall, Effect.storeRead])

/-- Dimension `i` of the summed engagement results, for stating what
`averageEngagementLevels` computes. -/
def sumDim (rs : List (List Nat)) (i : Nat) : Nat :=
  (rs.map (fun r => r.getD i 0)).sum

/-! ## Concrete inputs used to instantiate the theorems -/

/-- A four-message conversation. -/
def msgs4 : List Message :=
  [{ text := "m1", timestamp := "t1", isUser := true },
   { text := "m2", timestamp := "t2", isUser := false },
   { text := "m3", timestamp := "t3", isUser := true },
   { text := "m4", timestamp := "t4", isUser := false }]

/-- A nine-message conversation. -/
def msgs9 : List Message :=
  (List.range 9).map (fun i => { text := toString i, timestamp := "", isUser := true })

/-- A per-segment engagement scorer giving the three segments of `msgs9`
dimension scores 80, 60 and 70 respectively. -/
def analyzeW (seg : List Message) : List Nat :=
  if (seg.headD { text := "", timestamp := "", isUser := true }).text = "0" then
    [80, 80, 80, 80, 80]
  else if (seg.headD { text := "", timestamp := "", isUser := true }).text = "3" then
    [60, 60, 60, 60, 60]
  else [70, 70, 70, 70, 70]

/-- An operation that fails on its first two invocations and then succeeds. -/
def opW : Nat → Except String Nat :=
  fun k => if k < 2 then Except.error "fail" else Except.ok 7

/-- The prior-session goal of the merge example of the spec. -/
def gSleep40 : Goal :=
  { goal := "Sleep better", progress := 40, status := GoalStatus.inProgress }

/-- The new-session goals of the merge example of the spec. -/
def gSleep70 : Goal :=
  { goal := "Sleep better", progress := 70, status := GoalStatus.inProgress }

/-- Second new goal of the merge example. -/
def gExercise20 : Goal :=
  { goal := "Exercise", progress := 20, status := GoalStatus.inProgress }

/-- A new-goal list that repeats one goal text. -/
def gX20 : Goal := { goal := "X", progress := 20, status := GoalStatus.inProgress }

/-- Same text as `gX20`, higher progress. -/
def gX30 : Goal := { goal := "X", progress := 30, status := GoalStatus.inProgress }

/-- An empty but well-formed progress record. -/
def recA : ProgressData :=
  { sessionSummary := "a"
    goals := []
    improvements := { strengths := [], challenges := [], recommendations := [] }
    timestamp := "ta"
    emotionalJourney := { emotions := [], dominantEmotions := [], engagementLevel := [] } }

/-- A second distinct record. -/
def recB : ProgressData :=
  { recA with sessionSummary := "b", timestamp := "tb" }

/-- An environment in which every model call rejects and the clock reads a
fixed time; every analysis then returns its failure default and the session
pipeline still succeeds. -/
def envW : TrackEnv :=
  { emotionsResp := none
    engagementResp := none
    summaryResp := none
    goalsResp := none
    improvementsResp := none
    trendResps := []
    sessionResp := none
    timestamp := "2026-01-01T00:00:00.000Z" }

end ProgressTracker

/-- C1: the status derived from a goal's progress is a pure function of
progress which, on the clamped range, is not-started exactly at 0, achieved
exactly at 100, and in-progress otherwise, and which treats every
out-of-range input like its clamp to [0,100] (so 150 maps like 100, to
achieved). -/
theorem ProgressTracker.determineGoalStatus_pure_of_progress :
    ∀ p : Int,
      ProgressTracker.determineGoalStatus p =
        ProgressTracker.determineGoalStatus (min 100 (max 0 p)) ∧
      (0 ≤ p → p ≤ 100 →
        ((ProgressTracker.determineGoalStatus p = ProgressTracker.GoalStatus.notStarted ↔ p = 0) ∧
         (ProgressTracker.determineGoalStatus p = ProgressTracker.GoalStatus.achieved ↔ p = 100) ∧
         (p ≠ 0 → p ≠ 100 →
           ProgressTracker.determineGoalStatus p = ProgressTracker.GoalStatus.inProgress))) := by
  intro p
  unfold ProgressTracker.determineGoalStatus
  constructor
  · rcases le_or_lt 100 p with h | h
    · rw [if_pos h, if_pos (by omega : min 100 (max 0 p) ≥ 100)]
    · rcases le_or_lt p 0 with h0 | h0
      · rw [if_neg (by omega), if_neg (by omega),
          if_neg (by omega : ¬ min 100 (max 0 p) ≥ 100), if_neg (by omega : ¬ min 100 (max 0 p) > 0)]
      · rw [if_neg (by omega), if_pos h0,
          if_neg (by omega : ¬ min 100 (max 0 p) ≥ 100), if_pos (by omega : min 100 (max 0 p) > 0)]
  · intro h0 h100
    refine ⟨?_, ?_, ?_⟩
    · constructor
      · intro h
        by_contra hne
        rcases le_or_lt 100 p with hc | hc
        · rw [if_pos hc] at h; exact absurd h (by simp)
        · rw [if_neg (by omega), if_pos (by omega)] at h; exact absurd h (by simp)
      · intro h; subst h; rw [if_neg (by omega), if_neg (by omega)]
    · constructor
      · intro h
        by_contra hne
        rcases le_or_lt 100 p with hc | hc
        · omega
        · rcases le_or_lt p 0 with hz | hz
          · rw [if_neg (by omega), if_neg (by omega)] at h; exact absurd h (by simp)
          · rw [if_neg (by omega), if_pos hz] at h; exact absurd h (by simp)
      · intro h; subst h; rw [if_pos (by omega)]
    · intro hne0 hne100
      rw [if_neg (by omega), if_pos (by omega)]

/-- Witness for C1 at concrete inputs: 150 is treated like its clamp, and
45 is in-progress. -/
theorem ProgressTracker.determineGoalStatus_pure_of_progress_witness :
    ProgressTracker.determineGoalStatus 150 =
      ProgressTracker.determineGoalStatus (min 100 (max 0 150)) ∧
    ProgressTracker.determineGoalStatus 45 = ProgressTracker.GoalStatus.inProgress :=
  ⟨(ProgressTracker.determineGoalStatus_pure_of_progress 150).1,
   ((ProgressTracker.determineGoalStatus_pure_of_progress 45).2 (by decide) (by decide)).2.2
     (by decide) (by decide)⟩

/-! ## Shared lemmas about the store -/

/-- Every record passes the shape validation of the typed embedding, so the
read-side filter is the identity. -/
theorem ProgressTracker.getProgressHistory_eq (store : List ProgressData) :
    getProgressHistory store = store := by
  unfold getProgressHistory validateProgressData
  exact List.filter_true store

/-- Length of the last-n slice. -/
theorem ProgressTracker.takeLast_length (n : Nat) (l : List α) :
    (takeLast n l).length = min n l.length := by
  unfold takeLast
  rw [List.length_drop]
  omega

/-- C7: calling `endSession` or `trackProgressWithEmotions` with an empty
message list yields the validation error with the store untouched and an
empty effect trace: no model call and no storage read or write occurs. -/
theorem ProgressTracker.endSession_empty_no_effects :
    ∀ (env : TrackEnv) (store : List ProgressData),
      endSession env store [] =
        (Except.error "No messages provided for session analysis", store, ([] : List Effect)) ∧
      trackProgressWithEmotions env store [] =
        (Except.error "No messages provided for progress tracking", store, ([] : List Effect)) :=
  fun _ _ => ⟨rfl, rfl⟩

/-- C9: each per-analysis operation maps a rejected model call (`none`) to
its typed empty/zero default instead of propagating the failure; the
operations are total, so they never raise to their caller. -/
theorem ProgressTracker.analysis_ops_failure_defaults :
    analyzeEmotions none = { emotions := [], dominantEmotions := [] } ∧
    analyzeEngagement none = [0, 0, 0, 0, 0] ∧
    analyzeSessionSummary none = "" ∧
    analyzeGoals none = [] ∧
    analyzeImprovements none = { strengths := [], challenges := [], recommendations := [] } :=
  ⟨rfl, rfl, rfl, rfl, rfl⟩

/-- C4: every write validates, appends the new record to the existing
history and truncates to the most recent 50 entries, so the persisted
history never exceeds 50 records, and a write onto a 50-entry history
evicts exactly the oldest entry. -/
theorem ProgressTracker.saveProgress_caps_history :
    ∀ (store : List ProgressData) (r : ProgressData),
      saveProgress store r = Except.ok (takeLast 50 (getProgressHistory store ++ [r])) ∧
      (takeLast 50 (getProgressHistory store ++ [r])).length ≤ 50 ∧
      ((getProgressHistory store).length = 50 →
        takeLast 50 (getProgressHistory store ++ [r]) =
          (getProgressHistory store).drop 1 ++ [r]) := by
  intro store r
  refine ⟨rfl, ?_, ?_⟩
  · rw [takeLast_length]
    omega
  · intro h50
    unfold takeLast
    rw [List.length_append, h50]
    simp only [List.length_singleton]
    rw [List.drop_append_of_le_length (by omega)]

/-- Witness for C4: on a full 50-entry history, saving one more record
drops the oldest entry. -/
theorem ProgressTracker.saveProgress_caps_history_witness :
    takeLast 50 (getProgressHistory (List.replicate 50 recA) ++ [recB]) =
      (getProgressHistory (List.replicate 50 recA)).drop 1 ++ [recB] :=
  (saveProgress_caps_history (List.replicate 50 recA) recB).2.2 (by
    rw [getProgressHistory_eq, List.length_replicate])

/-- C6: for every model response (including the rejected-call branch) the
engagement analysis returns exactly 5 integers, each at most 100 (and, the
values being naturals, at least 0); on a response text it returns the first
five digit runs found anywhere in the text, clamped, with the tail padded
by zeros. -/
theorem ProgressTracker.analyzeEngagement_five_clamped :
    ∀ (resp : Option String),
      (analyzeEngagement resp).length = 5 ∧
      (∀ x ∈ analyzeEngagement resp, x ≤ 100) ∧
      (∀ t : String, resp = some t →
        analyzeEngagement resp =
          padToFive (((digitRuns t.toList).take 5).map (fun ds => min 100 (digitsToNat ds)))) := by
  intro resp
  match resp with
  | none =>
    refine ⟨rfl, ?_, ?_⟩
    · intro x hx
      simp [analyzeEngagement] at hx
      omega
    · intro t ht
      exact absurd ht (by simp)
  | some t =>
    have hlen : (((digitRuns t.toList).take 5).map (fun ds => min 100 (digitsToNat ds))).length ≤ 5 := by
      rw [List.length_map, List.length_take]
      omega
    refine ⟨?_, ?_, ?_⟩
    · show (padToFive _).length = 5
      unfold padToFive
      rw [List.length_append, List.length_replicate]
      omega
    · intro x hx
      show x ≤ 100
      unfold analyzeEngagement parseEngagementResponse padToFive at hx
      rw [List.mem_append] at hx
      rcases hx with hx | hx
      · obtain ⟨ds, _, hds⟩ := List.mem_map.mp hx
        omega
      · have := List.eq_of_mem_replicate hx
        omega
    · intro t2 ht
      cases ht
      rfl

/-- Witness for C6: a text with three digit runs, one of them above 100,
yields five values with the overflow clamped and the tail zero-padded. -/
theorem ProgressTracker.analyzeEngagement_five_clamped_witness :
    (analyzeEngagement (some "scores: 120, 30 and 7")).length = 5 ∧
    analyzeEngagement (some "scores: 120, 30 and 7") = [100, 30, 7, 0, 0] ∧
    30 ≤ 100 :=
  ⟨(analyzeEngagement_five_clamped (some "scores: 120, 30 and 7")).1,
   by decide,
   (analyzeEngagement_five_clamped (some "scores: 120, 30 and 7")).2.1 30 (by decide)⟩

/-- C5: the goal-list parser works block by block on the blank-line split
of the response; a block whose description pattern does not match
contributes nothing (whether or not a title is present), and a retained
block has its progress clamped to at most 100 (the parsed digit run is
already nonnegative) and status defaulting to not-started when the status
pattern is absent. -/
theorem ProgressTracker.analyzeGoals_discards_and_clamps :
    ∀ (t : String) (b : List Char) (g : GoalRec),
      parseGoalsResponse t = (splitOnSeq "\n\n".toList t.toList).filterMap parseGoalBlock ∧
      (findLineCapture "Description: ".toList b = none → parseGoalBlock b = none) ∧
      (parseGoalBlock b = some g →
        g.progress ≤ 100 ∧
        (findStatusCapture b = none → g.status = GoalStatus.notStarted)) := by
  intro t b g
  refine ⟨rfl, ?_, ?_⟩
  · intro hdesc
    unfold parseGoalBlock
    rw [hdesc]
    cases findLineCapture "Title: ".toList b <;> rfl
  · intro hsome
    unfold parseGoalBlock at hsome
    cases htitle : findLineCapture "Title: ".toList b with
    | none => rw [htitle] at hsome; exact absurd hsome (by simp)
    | some tcap =>
      cases hdesc : findLineCapture "Description: ".toList b with
      | none => rw [htitle, hdesc] at hsome; exact absurd hsome (by simp)
      | some dcap =>
        rw [htitle, hdesc] at hsome
        simp only [Option.some.injEq] at hsome
        constructor
        · rw [← hsome]
          cases findProgressCapture b <;> simp
        · intro hstat
          rw [← hsome]
          simp [hstat]

/-- Witness for C5: a block with a title but no description is discarded,
and a retained block with progress 150 and an unrecognized status literal
is kept with progress clamped to 100 and status not-started. -/
theorem ProgressTracker.analyzeGoals_discards_and_clamps_witness :
    parseGoalBlock "Title: Sleep".toList = none ∧
    parseGoalBlock "Title: Run\nDescription: jog daily\nProgress: 150%\nStatus: odd".toList =
      some { title := "Run", description := "jog daily", progress := 100,
             status := GoalStatus.notStarted } ∧
    (100 : Nat) ≤ 100 ∧
    parseGoalsResponse "Title: Sleep\n\nTitle: Run\nDescription: jog daily\nProgress: 150%\nStatus: odd" =
      [{ title := "Run", description := "jog daily", progress := 100,
         status := GoalStatus.notStarted }] :=
  ⟨(analyzeGoals_discards_and_clamps "" "Title: Sleep".toList
      { title := "", description := "", progress := 0, status := GoalStatus.notStarted }).2.1
      (by decide),
   by decide,
   ((analyzeGoals_discards_and_clamps ""
      "Title: Run\nDescription: jog daily\nProgress: 150%\nStatus: odd".toList
      { title := "Run", description := "jog daily", progress := 100,
        status := GoalStatus.notStarted }).2.2 (by decide)).1,
   by decide⟩

/-! ## Lemmas about the retry wrapper -/

/-- Every retry run makes at least one invocation. -/
theorem ProgressTracker.retryGo_calls_pos (op : Nat → Except String α) (k n : Nat) :
    1 ≤ (retryGo op k n).calls := by
  cases n with
  | zero => unfold retryGo; cases op k <;> simp
  | succ m => unfold retryGo; cases op k <;> simp

/-- A run with budget `n` makes at most `n + 1` invocations. -/
theorem ProgressTracker.retryGo_calls_le (op : Nat → Except String α) :
    ∀ (n k : Nat), (retryGo op k n).calls ≤ n + 1 := by
  intro n
  induction n with
  | zero => intro k; unfold retryGo; cases op k <;> simp
  | succ m ih =>
    intro k
    unfold retryGo
    cases op k with
    | ok a => simp
    | error e =>
      simp only
      have := ih (k + 1)
      omega

/-- The delays waited are one fixed `RETRY_DELAY` per failure, i.e. one per
invocation beyond the first: no jitter and no backoff growth. -/
theorem ProgressTracker.retryGo_delays (op : Nat → Except String α) :
    ∀ (n k : Nat),
      (retryGo op k n).delays = List.replicate ((retryGo op k n).calls - 1) RETRY_DELAY := by
  intro n
  induction n with
  | zero => intro k; unfold retryGo; cases op k <;> simp
  | succ m ih =>
    intro k
    unfold retryGo
    cases op k with
    | ok a => simp
    | error e =>
      simp only
      rw [ih (k + 1)]
      have := retryGo_calls_pos op (k + 1) m
      rw [Nat.add_sub_cancel]
      cases h : (retryGo op (k + 1) m).calls with
      | zero => omega
      | succ c =>
        rw [List.replicate_succ]
        simp

/-- If the first success is at invocation `j` within the budget, its value
is returned after exactly `j + 1` invocations. -/
theorem ProgressTracker.retryGo_first_success (op : Nat → Except String α) :
    ∀ (n j k : Nat) (a : α), j ≤ n → op (k + j) = Except.ok a →
      (∀ i, i < j → ∃ e, op (k + i) = Except.error e) →
      (retryGo op k n).result = Except.ok a ∧ (retryGo op k n).calls = j + 1 := by
  intro n
  induction n with
  | zero =>
    intro j k a hj hok _
    have hj0 : j = 0 := by omega
    subst hj0
    rw [Nat.add_zero] at hok
    unfold retryGo
    rw [hok]
    exact ⟨rfl, rfl⟩
  | succ m ih =>
    intro j k a hj hok hfail
    cases j with
    | zero =>
      rw [Nat.add_zero] at hok
      unfold retryGo
      rw [hok]
      exact ⟨rfl, rfl⟩
    | succ i =>
      obtain ⟨e, he⟩ := hfail 0 (by omega)
      rw [Nat.add_zero] at he
      unfold retryGo
      rw [he]
      simp only
      have hrec := ih i (k + 1) a (by omega)
        (by rw [Nat.add_right_comm]; exact hok)
        (by
          intro i2 hi2
          obtain ⟨e2, he2⟩ := hfail (i2 + 1) (by omega)
          exact ⟨e2, by rw [Nat.add_right_comm]; exact he2⟩)
      exact ⟨hrec.1, by rw [hrec.2]⟩

/-- If every invocation within the budget fails, the run makes all
`n + 1` invocations and propagates the outcome of the last one unchanged. -/
theorem ProgressTracker.retryGo_all_fail (op : Nat → Except String α) :
    ∀ (n k : Nat), (∀ j, j ≤ n → ∃ e, op (k + j) = Except.error e) →
      (retryGo op k n).result = op (k + n) ∧ (retryGo op k n).calls = n + 1 := by
  intro n
  induction n with
  | zero =>
    intro k hfail
    obtain ⟨e, he⟩ := hfail 0 (by omega)
    rw [Nat.add_zero] at he
    unfold retryGo
    rw [he, Nat.add_zero]
    exact ⟨he.symm, rfl⟩
  | succ m ih =>
    intro k hfail
    obtain ⟨e, he⟩ := hfail 0 (by omega)
    rw [Nat.add_zero] at he
    unfold retryGo
    rw [he]
    simp only
    have hrec := ih (k + 1) (by
      intro j hj
      obtain ⟨e2, he2⟩ := hfail (j + 1) (by omega)
      exact ⟨e2, by rw [Nat.add_right_comm]; exact he2⟩)
    refine ⟨?_, by rw [hrec.2]⟩
    rw [hrec.1, Nat.add_right_comm, Nat.add_assoc]

/-- C8: the retry wrapper with the default budget of `MAX_RETRIES = 3` and
the fixed `RETRY_DELAY = 1000` ms delay makes at most 4 invocations, waits
the same fixed delay between consecutive attempts (no jitter, no backoff
growth), returns the value of the first successful invocation, and when
every attempt fails it makes exactly 4 invocations and propagates the last
failure unchanged. -/
theorem ProgressTracker.retryOperation_contract :
    ∀ {α : Type} (op : Nat → Except String α),
      (retryOperation op MAX_RETRIES).calls ≤ MAX_RETRIES + 1 ∧
      (retryOperation op MAX_RETRIES).delays =
        List.replicate ((retryOperation op MAX_RETRIES).calls - 1) RETRY_DELAY ∧
      (∀ j a, j ≤ MAX_RETRIES → op j = Except.ok a →
        (∀ i, i < j → ∃ e, op i = Except.error e) →
        (retryOperation op MAX_RETRIES).result = Except.ok a ∧
        (retryOperation op MAX_RETRIES).calls = j + 1) ∧
      ((∀ j, j ≤ MAX_RETRIES → ∃ e, op j = Except.error e) →
        (retryOperation op MAX_RETRIES).result = op MAX_RETRIES ∧
        (retryOperation op MAX_RETRIES).calls = MAX_RETRIES + 1) := by
  intro α op
  refine ⟨retryGo_calls_le op MAX_RETRIES 0, retryGo_delays op MAX_RETRIES 0, ?_, ?_⟩
  · intro j a hj hok hfail
    exact retryGo_first_success op MAX_RETRIES j 0 a hj (by rw [Nat.zero_add]; exact hok)
      (by intro i hi; rw [Nat.zero_add]; exact hfail i hi)
  · intro hfail
    have h := retryGo_all_fail op MAX_RETRIES 0
      (by intro j hj; rw [Nat.zero_add]; exact hfail j hj)
    rw [Nat.zero_add] at h
    exact h

/-- Witness for C8: an operation failing twice and then succeeding returns
the success after 3 invocations with two fixed delays in between. -/
theorem ProgressTracker.retryOperation_contract_witness :
    (retryOperation opW MAX_RETRIES).result = Except.ok 7 ∧
    (retryOperation opW MAX_RETRIES).calls = 3 ∧
    (retryOperation opW MAX_RETRIES).delays = [RETRY_DELAY, RETRY_DELAY] := by
  obtain ⟨hres, hcalls⟩ := (retryOperation_contract opW).2.2.1 2 7 (by decide) (by rfl)
    (fun i hi => ⟨"fail", by unfold opW; rw [if_pos hi]⟩)
  refine ⟨hres, hcalls, ?_⟩
  rw [(retryOperation_contract opW).2.1, hcalls]
  rfl

/-! ## Lemmas about the message segmentation and the engagement average -/

/-- Chunking with sufficient fuel concatenates back to the original list. -/
theorem ProgressTracker.chunksOfFuel_flatten (s : Nat) (hs : 1 ≤ s) :
    ∀ (fuel : Nat) (l : List α), l.length ≤ fuel → (chunksOfFuel s fuel l).flatten = l := by
  intro fuel
  induction fuel with
  | zero =>
    intro l hl
    have hnil : l = [] := by
      cases l with
      | nil => rfl
      | cons a l2 => simp at hl
    subst hnil
    rfl
  | succ f ih =>
    intro l hl
    cases l with
    | nil => rfl
    | cons a l2 =>
      show (List.take s (a :: l2) :: chunksOfFuel s f (List.drop s (a :: l2))).flatten = a :: l2
      rw [List.flatten_cons, ih (List.drop s (a :: l2)) (by
        rw [List.length_drop]
        simp only [List.length_cons] at hl ⊢
        omega)]
      exact List.take_append_drop s (a :: l2)

/-- Chunking with sufficient fuel produces `⌈length / s⌉` chunks. -/
theorem ProgressTracker.chunksOfFuel_length (s : Nat) (hs : 1 ≤ s) :
    ∀ (fuel : Nat) (l : List α),
      l.length ≤ fuel → (chunksOfFuel s fuel l).length = (l.length + s - 1) / s := by
  intro fuel
  induction fuel with
  | zero =>
    intro l hl
    have hnil : l = [] := by
      cases l with
      | nil => rfl
      | cons a l2 => simp at hl
    subst hnil
    show (0 : Nat) = (0 + s - 1) / s
    rw [Nat.zero_add, Nat.div_eq_of_lt (by omega)]
  | succ f ih =>
    intro l hl
    cases l with
    | nil =>
      show (0 : Nat) = (0 + s - 1) / s
      rw [Nat.zero_add, Nat.div_eq_of_lt (by omega)]
    | cons a l2 =>
      show (List.take s (a :: l2) :: chunksOfFuel s f (List.drop s (a :: l2))).length =
        ((a :: l2).length + s - 1) / s
      rw [List.length_cons, ih (List.drop s (a :: l2)) (by
        rw [List.length_drop]
        simp only [List.length_cons] at hl ⊢
        omega)]
      rw [List.length_drop, List.length_cons]
      rcases le_or_lt (l2.length + 1) s with hms | hms
      · have h1 : l2.length + 1 - s = 0 := by omega
        rw [h1, Nat.zero_add, Nat.div_eq_of_lt (by omega), Nat.zero_add]
        exact (Nat.div_eq_of_lt_le (by omega) (by omega)).symm
      · have h1 : l2.length + 1 - s + s - 1 = l2.length := by omega
        have h2 : l2.length + 1 + s - 1 = l2.length + s := by omega
        rw [h1, h2, Nat.add_div_right _ (by omega)]

/-- Every chunk has at most `s` elements. -/
theorem ProgressTracker.chunksOfFuel_sizes (s : Nat) :
    ∀ (fuel : Nat) (l : List α), ∀ seg ∈ chunksOfFuel s fuel l, seg.length ≤ s := by
  intro fuel
  induction fuel with
  | zero =>
    intro l seg hseg
    cases l <;> simp [chunksOfFuel] at hseg
  | succ f ih =>
    intro l seg hseg
    cases l with
    | nil => simp [chunksOfFuel] at hseg
    | cons a l2 =>
      have hseg2 : seg = List.take s (a :: l2) ∨ seg ∈ chunksOfFuel s f (List.drop s (a :: l2)) := by
        simpa [chunksOfFuel] using hseg
      rcases hseg2 with rfl | h
      · rw [List.length_take]; omega
      · exact ih _ seg h

/-- `addLevels` on a five-element accumulator adds the current result
index-wise, missing indices counting as zero. -/
theorem ProgressTracker.addLevels_five (a0 a1 a2 a3 a4 : Nat) (r : List Nat) :
    addLevels [a0, a1, a2, a3, a4] r =
      [a0 + r.getD 0 0, a1 + r.getD 1 0, a2 + r.getD 2 0, a3 + r.getD 3 0, a4 + r.getD 4 0] := by
  rcases r with _ | ⟨x0, _ | ⟨x1, _ | ⟨x2, _ | ⟨x3, _ | ⟨x4, rest⟩⟩⟩⟩⟩ <;> rfl

/-- The fold of `addLevels` from a five-element accumulator computes the
five dimension-wise sums. -/
theorem ProgressTracker.foldl_addLevels :
    ∀ (rs : List (List Nat)) (a0 a1 a2 a3 a4 : Nat),
      rs.foldl addLevels [a0, a1, a2, a3, a4] =
        [a0 + sumDim rs 0, a1 + sumDim rs 1, a2 + sumDim rs 2,
         a3 + sumDim rs 3, a4 + sumDim rs 4] := by
  intro rs
  induction rs with
  | nil => intro a0 a1 a2 a3 a4; simp [sumDim]
  | cons r rs ih =>
    intro a0 a1 a2 a3 a4
    rw [List.foldl_cons, addLevels_five, ih]
    simp [sumDim, Nat.add_assoc]

/-- Each of the five entries of `averageEngagementLevels` is the rounded
average `Math.round(sum / count)` of its dimension. -/
theorem ProgressTracker.averageEngagementLevels_getD (rs : List (List Nat)) (i : Nat)
    (hi : i < 5) :
    (averageEngagementLevels rs).getD i 0 =
      (2 * sumDim rs i + rs.length) / (2 * rs.length) := by
  unfold averageEngagementLevels
  rw [foldl_addLevels rs 0 0 0 0 0]
  interval_cases i <;> simp [List.getD]

/-- Counterexample to C2 as stated: a four-message conversation is split
into 2 segments, not 3 (segment size `ceil(4/3) = 2` covers the list in
two chunks), so the engagement operation is invoked twice, not three
times. -/
theorem ProgressTracker.calculateEngagementTrend_not_always_three :
    msgs4 ≠ [] ∧ msgs4.length = 4 ∧
    ((splitMessagesIntoSegments msgs4).map analyzeW).length = 2 ∧
    ¬ (splitMessagesIntoSegments msgs4).length = 3 := by
  decide

/-- C2 amended: the engagement-trend computation splits the messages into
contiguous chunks of size `ceil(n/3)` (the last possibly shorter) that
concatenate back to the message list; the number of chunks — and hence of
engagement invocations, one per chunk — is exactly 3 when `n = 3` or
`n ≥ 5` (it is 1 for `n = 1` and 2 for `n ∈ {2, 4}`), and the result is
the dimension-wise average of the chunk scores over the actual number of
chunks, rounded half-up. -/
theorem ProgressTracker.calculateEngagementTrend_amended :
    ∀ (analyze : List Message → List Nat) (messages : List Message),
      messages ≠ [] →
      (splitMessagesIntoSegments messages).flatten = messages ∧
      (∀ seg ∈ splitMessagesIntoSegments messages,
        seg.length ≤ (messages.length + 2) / 3) ∧
      ((messages.length = 3 ∨ 5 ≤ messages.length) →
        (splitMessagesIntoSegments messages).length = 3) ∧
      ((splitMessagesIntoSegments messages).map analyze).length =
        (splitMessagesIntoSegments messages).length ∧
      calculateEngagementTrend analyze messages =
        averageEngagementLevels ((splitMessagesIntoSegments messages).map analyze) ∧
      (∀ i, i < 5 →
        (calculateEngagementTrend analyze messages).getD i 0 =
          (2 * sumDim ((splitMessagesIntoSegments messages).map analyze) i +
             (splitMessagesIntoSegments messages).length) /
           (2 * (splitMessagesIntoSegments messages).length)) := by
  intro analyze messages hne
  have hn : 1 ≤ messages.length := List.length_pos.mpr hne
  have hs : 1 ≤ (messages.length + 2) / 3 := by omega
  refine ⟨?_, ?_, ?_, ?_, rfl, ?_⟩
  · exact chunksOfFuel_flatten _ hs messages.length messages le_rfl
  · intro seg hseg
    exact chunksOfFuel_sizes _ messages.length messages seg hseg
  · intro hcase
    show (chunksOfFuel ((messages.length + 2) / 3) messages.length messages).length = 3
    rw [chunksOfFuel_length _ hs messages.length messages le_rfl]
    exact Nat.div_eq_of_lt_le (by omega) (by omega)
  · exact List.length_map _ _
  · intro i hi
    show (averageEngagementLevels ((splitMessagesIntoSegments messages).map analyze)).getD i 0 = _
    rw [averageEngagementLevels_getD _ i hi, List.length_map]

/-- Witness for C2 amended: nine messages split into three chunks of
three, and per-dimension chunk results 80, 60, 70 average to 70. -/
theorem ProgressTracker.calculateEngagementTrend_amended_witness :
    (splitMessagesIntoSegments msgs9).length = 3 ∧
    calculateEngagementTrend analyzeW msgs9 = [70, 70, 70, 70, 70] ∧
    (calculateEngagementTrend analyzeW msgs9).getD 0 0 =
      (2 * sumDim ((splitMessagesIntoSegments msgs9).map analyzeW) 0 +
         (splitMessagesIntoSegments msgs9).length) /
       (2 * (splitMessagesIntoSegments msgs9).length) :=
  ⟨(calculateEngagementTrend_amended analyzeW msgs9 (by decide)).2.2.1 (Or.inr (by decide)),
   by decide,
   (calculateEngagementTrend_amended analyzeW msgs9 (by decide)).2.2.2.2.2 0 (by decide)⟩

/-! ## Lemmas about the goal merge -/

/-- The matched-goal update keeps the goal text. -/
theorem ProgressTracker.updateGoalProgress_goal (g : Goal) (p : Int) :
    (updateGoalProgress g p).goal = g.goal := rfl

/-- When no goal of the list has the searched text, `updateFirstMatch`
reports `none`. -/
theorem ProgressTracker.updateFirstMatch_none (t : String) (p : Int) :
    ∀ (l : List Goal), updateFirstMatch t p l = none → ∀ x ∈ l, x.goal ≠ t := by
  intro l
  induction l with
  | nil => intro _ x hx; simp at hx
  | cons g gs ih =>
    intro h x hx
    unfold updateFirstMatch at h
    by_cases hg : g.goal = t
    · rw [if_pos hg] at h; exact absurd h (by simp)
    · rw [if_neg hg] at h
      rcases List.mem_cons.mp hx with rfl | hx2
      · exact hg
      · exact ih (Option.map_eq_none'.mp h) x hx2

/-- A successful `updateFirstMatch` decomposes the list around the first
goal of matching text and updates exactly that goal. -/
theorem ProgressTracker.updateFirstMatch_some (t : String) (p : Int) :
    ∀ (l l2 : List Goal), updateFirstMatch t p l = some l2 →
      ∃ l₁ g l₃, l = l₁ ++ g :: l₃ ∧ g.goal = t ∧ (∀ x ∈ l₁, x.goal ≠ t) ∧
        l2 = l₁ ++ updateGoalProgress g p :: l₃ := by
  intro l
  induction l with
  | nil => intro l2 h; exact absurd h (by simp [updateFirstMatch])
  | cons g gs ih =>
    intro l2 h
    unfold updateFirstMatch at h
    by_cases hg : g.goal = t
    · rw [if_pos hg] at h
      cases h
      exact ⟨[], g, gs, rfl, hg, by simp, rfl⟩
    · rw [if_neg hg] at h
      obtain ⟨gs2, hgs2, hfb⟩ := Option.map_eq_some'.mp h
      subst hfb
      obtain ⟨l₁, g2, l₃, rfl, hg2, hl₁, rfl⟩ := ih gs2 hgs2
      refine ⟨g :: l₁, g2, l₃, rfl, hg2, ?_, rfl⟩
      intro x hx
      rcases List.mem_cons.mp hx with rfl | hx2
      · exact hg
      · exact hl₁ x hx2

/-- Unfolding of the spec-side merge of one goal against a cons. -/
theorem ProgressTracker.mergeOne_cons (n : Goal) (ns : List Goal) (x : Goal) :
    mergeOne (n :: ns) x =
      if n.goal = x.goal then updateGoalProgress x n.progress else mergeOne ns x := by
  unfold mergeOne
  by_cases h : n.goal = x.goal <;> simp [List.find?_cons, h]

/-- A goal whose text occurs nowhere in the new list is left unchanged by
the spec-side merge. -/
theorem ProgressTracker.mergeOne_no_match (ns : List Goal) (x : Goal)
    (h : ∀ m ∈ ns, m.goal ≠ x.goal) : mergeOne ns x = x := by
  unfold mergeOne
  rw [List.find?_eq_none.mpr (by intro m hm; simp [h m hm])]

/-- Freshness unfolded to a membership statement. -/
theorem ProgressTracker.freshGoal_eq_true (prev : List Goal) (n : Goal) :
    freshGoal prev n = true ↔ ∀ g ∈ prev, g.goal ≠ n.goal := by
  unfold freshGoal
  simp [List.any_eq_true]

/-- Spec-side merge step, matched case: merging against `n :: ns` on a
prior list whose unique match for `n` sits between `l₁` and `l₃` equals
first applying the `n`-update and then merging against `ns`. -/
theorem ProgressTracker.mergeGoalsSpec_matched (l₁ l₃ ns : List Goal) (g n : Goal)
    (hg : g.goal = n.goal)
    (hl₁ : ∀ x ∈ l₁, x.goal ≠ n.goal)
    (hl₃ : ∀ x ∈ l₃, x.goal ≠ n.goal)
    (hns : ∀ m ∈ ns, m.goal ≠ n.goal) :
    mergeGoalsSpec (l₁ ++ updateGoalProgress g n.progress :: l₃) ns =
      mergeGoalsSpec (l₁ ++ g :: l₃) (n :: ns) := by
  unfold mergeGoalsSpec
  have hmap : (l₁ ++ updateGoalProgress g n.progress :: l₃).map (mergeOne ns) =
      (l₁ ++ g :: l₃).map (mergeOne (n :: ns)) := by
    rw [List.map_append, List.map_append, List.map_cons, List.map_cons]
    have h1 : l₁.map (mergeOne ns) = l₁.map (mergeOne (n :: ns)) := by
      refine List.map_congr_left ?_
      intro x hx
      rw [mergeOne_cons, if_neg (fun hc => hl₁ x hx hc.symm)]
    have h2 : mergeOne ns (updateGoalProgress g n.progress) = mergeOne (n :: ns) g := by
      rw [mergeOne_no_match ns _ (by
        intro m hm
        rw [updateGoalProgress_goal, hg]
        exact hns m hm)]
      rw [mergeOne_cons, if_pos hg.symm]
    have h3 : l₃.map (mergeOne ns) = l₃.map (mergeOne (n :: ns)) := by
      refine List.map_congr_left ?_
      intro x hx
      rw [mergeOne_cons, if_neg (fun hc => hl₃ x hx hc.symm)]
    rw [h1, h2, h3]
  have hfilter : ns.filter (freshGoal (l₁ ++ updateGoalProgress g n.progress :: l₃)) =
      (n :: ns).filter (freshGoal (l₁ ++ g :: l₃)) := by
    have hnf : freshGoal (l₁ ++ g :: l₃) n = false := by
      unfold freshGoal
      simp [hg]
    rw [List.filter_cons, hnf]
    simp only [Bool.false_eq_true, if_false]
    refine List.filter_congr ?_
    intro x _
    unfold freshGoal
    simp [List.any_append, List.any_cons, updateGoalProgress_goal]
  rw [hmap, hfilter]

/-- Spec-side merge step, fresh case: merging against `n :: ns` on a prior
list containing no match for `n` equals appending `n` and merging against
`ns`. -/
theorem ProgressTracker.mergeGoalsSpec_fresh (prev ns : List Goal) (n : Goal)
    (hprev : ∀ x ∈ prev, x.goal ≠ n.goal)
    (hns : ∀ m ∈ ns, m.goal ≠ n.goal) :
    mergeGoalsSpec (prev ++ [n]) ns = mergeGoalsSpec prev (n :: ns) := by
  unfold mergeGoalsSpec
  have h1 : prev.map (mergeOne ns) = prev.map (mergeOne (n :: ns)) := by
    refine List.map_congr_left ?_
    intro x hx
    rw [mergeOne_cons, if_neg (fun hc => hprev x hx hc.symm)]
  have h2 : mergeOne ns n = n := mergeOne_no_match ns n hns
  have h3 : ns.filter (freshGoal (prev ++ [n])) = ns.filter (freshGoal prev) := by
    refine List.filter_congr ?_
    intro x hx
    unfold freshGoal
    have : (n.goal == x.goal) = false := by
      simp only [beq_eq_false_iff_ne, ne_eq]
      exact fun hc => hns x hx hc.symm
    simp [List.any_append, List.any_cons, this]
  have h4 : freshGoal prev n = true := (freshGoal_eq_true prev n).mpr hprev
  rw [List.map_append, List.map_cons, List.map_nil, h1, h2, h3, List.filter_cons, h4]
  simp

/-- Counterexample to C3 as stated: when the new goal list repeats a goal
text that does not occur in the prior list, the later occurrence is not
appended as its own entry — it merges into the earlier occurrence (the
source matches each new goal against the accumulating merged list, not
against the prior list), so the claimed description `mergeGoalsSpec`
disagrees with the code. -/
theorem ProgressTracker.mergeGoals_duplicate_not_appended :
    mergeGoals [] [gX20, gX30] =
      [{ goal := "X", progress := 30, status := GoalStatus.inProgress }] ∧
    (mergeGoals [] [gX20, gX30]).length = 1 ∧
    mergeGoalsSpec [] [gX20, gX30] = [gX20, gX30] ∧
    ¬ mergeGoals [] [gX20, gX30] = mergeGoalsSpec [] [gX20, gX30] := by
  decide

/-- C3 amended: when the prior and the new goal lists each carry pairwise
distinct goal texts (as successive session records do), the merge is
exactly the claim's description: goals are matched by case-sensitive exact
text equality, every matched prior goal keeps the larger progress with the
status recomputed from it, and every new goal whose text does not occur in
the prior list is appended, in order, after the prior goals.  (Without the
distinctness proviso a repeated new text merges into its first occurrence
instead of being appended.) -/
theorem ProgressTracker.mergeGoals_amended :
    ∀ (prev new : List Goal),
      (prev.map Goal.goal).Nodup → (new.map Goal.goal).Nodup →
      mergeGoals prev new = mergeGoalsSpec prev new := by
  intro prev new
  induction new generalizing prev with
  | nil =>
    intro hp hn
    unfold mergeGoals mergeGoalsSpec
    simp only [List.foldl_nil, List.filter_nil, List.append_nil]
    have hone : ∀ x ∈ prev, mergeOne ([] : List Goal) x = x :=
      fun x _ => mergeOne_no_match [] x (by simp)
    rw [List.map_congr_left hone]
    simp
  | cons n ns ih =>
    intro hp hn
    rw [List.map_cons, List.nodup_cons] at hn
    obtain ⟨hn1, hn2⟩ := hn
    have hns : ∀ m ∈ ns, m.goal ≠ n.goal := by
      intro m hm hc
      exact hn1 (by rw [← hc]; exact List.mem_map_of_mem Goal.goal hm)
    unfold mergeGoals
    rw [List.foldl_cons]
    cases hum : updateFirstMatch n.goal n.progress prev with
    | some prev2 =>
      have hstep : mergeStep prev n = prev2 := by unfold mergeStep; rw [hum]
      rw [hstep]
      obtain ⟨l₁, g, l₃, rfl, hggoal, hl₁, rfl⟩ := updateFirstMatch_some _ _ prev prev2 hum
      have hl₃ : ∀ x ∈ l₃, x.goal ≠ n.goal := by
        intro x hx hc
        rw [List.map_append, List.map_cons] at hp
        have h5 := (List.nodup_append.mp hp).2.1
        rw [List.nodup_cons] at h5
        apply h5.1
        rw [hggoal, ← hc]
        exact List.mem_map_of_mem Goal.goal hx
      have hp' : ((l₁ ++ updateGoalProgress g n.progress :: l₃).map Goal.goal).Nodup := by
        rw [List.map_append, List.map_cons, updateGoalProgress_goal]
        rw [List.map_append, List.map_cons] at hp
        exact hp
      have hrec := ih (l₁ ++ updateGoalProgress g n.progress :: l₃) hp' hn2
      unfold mergeGoals at hrec
      rw [hrec]
      exact mergeGoalsSpec_matched l₁ l₃ ns g n hggoal hl₁ hl₃ hns
    | none =>
      have hstep : mergeStep prev n = prev ++ [n] := by unfold mergeStep; rw [hum]
      rw [hstep]
      have hfresh := updateFirstMatch_none _ _ prev hum
      have hp' : ((prev ++ [n]).map Goal.goal).Nodup := by
        rw [List.map_append, List.map_cons, List.map_nil, List.nodup_append]
        refine ⟨hp, by simp, ?_⟩
        intro a ha
        simp only [List.mem_singleton]
        intro hb
        subst hb
        obtain ⟨x, hx, hxa⟩ := List.mem_map.mp ha
        exact hfresh x hx hxa
      have hrec := ih (prev ++ [n]) hp' hn2
      unfold mergeGoals at hrec
      rw [hrec]
      exact mergeGoalsSpec_fresh prev ns n hfresh hns

/-- Witness for C3 amended at the spec's own example: merging prior
`[{Sleep better, 40}]` with new `[{Sleep better, 70}, {Exercise, 20}]`
keeps the larger progress for the matched goal and appends the fresh one,
statuses recomputed. -/
theorem ProgressTracker.mergeGoals_amended_witness :
    mergeGoals [gSleep40] [gSleep70, gExercise20] =
      [{ goal := "Sleep better", progress := 70, status := GoalStatus.inProgress },
       { goal := "Exercise", progress := 20, status := GoalStatus.inProgress }] ∧
    mergeGoals [gSleep40] [gSleep70, gExercise20] =
      mergeGoalsSpec [gSleep40] [gSleep70, gExercise20] :=
  ⟨by decide,
   mergeGoals_amended [gSleep40] [gSleep70, gExercise20] (by decide) (by decide)⟩

/-- C10: a successful `endSession` run persists two records, not one: the
aggregator saves its pre-merge record, and `endSession` then saves the
final merged record as a separate additional entry, so the trace carries
exactly two store writes and the stored history grows by two entries
subject to the 50-entry cap. -/
theorem ProgressTracker.endSession_two_saves :
    ∀ (env : TrackEnv) (store : List ProgressData) (messages : List Message),
      messages ≠ [] →
      ((endSession env store messages).1).isOk = true →
      ((endSession env store messages).2.2).count Effect.storeWrite = 2 ∧
      ((endSession env store messages).2.1).length =
        min 50 (min 50 (store.length + 1) + 1) ∧
      (∃ r1 s1 pd, saveProgress store r1 = Except.ok s1 ∧
        (endSession env store messages).1 = Except.ok pd ∧
        saveProgress s1 pd = Except.ok ((endSession env store messages).2.1)) := by
  intro env store msgs hne hok
  have hie : msgs.isEmpty = false := by
    cases msgs with
    | nil => exact absurd rfl hne
    | cons a l => rfl
  have htrack : trackProgressWithEmotions env store msgs =
      (Except.ok (aggregateRecord env),
       takeLast 50 (getProgressHistory store ++ [aggregateRecord env]),
       fiveCalls ++ [Effect.storeRead, Effect.storeWrite]) := by
    unfold trackProgressWithEmotions
    rw [hie]
    simp [validateProgressData, saveProgress]
  unfold endSession at hok ⊢
  rw [hie] at hok ⊢
  simp only [Bool.false_eq_true, if_false] at hok ⊢
  rw [htrack] at hok ⊢
  dsimp only at hok ⊢
  cases hgen : generateComprehensiveSummary (aggregateRecord env).sessionSummary
      (analyzeSession env.sessionResp) with
  | none =>
    rw [hgen] at hok
    simp [Except.isOk, Except.toBool] at hok
  | some summary =>
    simp only [saveProgress, validateProgressData, if_true] at hok ⊢
    refine ⟨?_, ?_, ?_⟩
    · simp [fiveCalls, List.count_append, List.count_cons, List.count_replicate]
    · simp [takeLast_length, getProgressHistory_eq]
    · exact ⟨aggregateRecord env, _, _, rfl, rfl, rfl⟩

/-- Witness for C10: a concrete successful session run over `msgs4` in the
all-rejecting environment, starting from the empty store, performs exactly
two store writes. -/
theorem ProgressTracker.endSession_two_saves_witness :
    ((endSession envW [] msgs4).2.2).count Effect.storeWrite = 2 :=
  (endSession_two_saves envW [] msgs4 (by decide) (by decide)).1
